import Mathlib

/-!
Verification of the sublist3r-rs enumeration core against its specification.

The definitions below are a shallow embedding of the Rust sources:

* `src/enumerate/mod.rs` — the `Enumerator::enumerate` retry/backoff/progress
  state machine (`LoopState`, `guardB`, `stepSearchFailed`, `stepBodyFailed`,
  `stepExtracted`, `loopIter`, `enumerate`);
* `src/enumerate/google.rs` — `Google::generate_query`;
* `src/enumerate/alienvault.rs`, `crtsh.rs`, `virustotal.rs`,
  `hackertarget.rs` — the structured (JSON / CSV-like) extractors, over a
  small executable JSON parser standing in for `serde_json`;
* `src/enumerate/bing.rs`, `google.rs`, `yahoo.rs`, `baidu.rs`,
  `dnsdumpster.rs` — the regex extractors, embedded as executable scanners
  implementing the leftmost-first, non-overlapping match semantics of the
  concrete patterns each adapter compiles;
* `src/enumerate/mod.rs` / `src/lib.rs` / `enumerate-derive/src/lib.rs` —
  the `Engine` registry, the generated `enum_vec` helper and the
  per-choice constructors of `run`;
* `src/enumerate/virustotal.rs` — `compute_anti_abuse_header`, with `f64`
  arithmetic modelled by exact rationals (the claimed bounds are robust to
  rounding at the magnitudes involved).

Rust machine integers are modelled as `Nat`: every counter in the loop is
provably bounded far below its machine width (`retries <= 10`,
`backoff_secs <= 16`, `rounds <= max_rounds`), so no wrap-around can occur.
`HashSet<String>` is modelled as `Finset String`.
-/

namespace Sublist3r

/-- Constant `MAX_RETRIES` from `src/enumerate/mod.rs` line 131. -/
def MAX_RETRIES : Nat := 10

/-- Constant `MAX_BACKOFF` from `src/enumerate/mod.rs` line 133. -/
def MAX_BACKOFF : Nat := 16

/-- The immutable per-source descriptor (`Settings` in `src/enumerate/mod.rs`).
Only `maxRounds` is read by the enumerator loop. -/
structure Settings where
  name : String
  baseUrl : String
  userAgent : String
  maxRounds : Nat
deriving DecidableEq

/-- The mutable loop state of `Enumerator::enumerate`
(`src/enumerate/mod.rs` lines 149-154). -/
structure LoopState where
  rounds : Nat
  retries : Nat
  page : Nat
  backoffSecs : Nat
  found : Nat
  subdomains : Finset String
deriving DecidableEq

/-- Initial loop state (`src/enumerate/mod.rs` lines 149-154):
`rounds=0, retries=0, page=0, backoff_secs=1, found=0, S=∅`. -/
def initState : LoopState :=
  { rounds := 0, retries := 0, page := 0, backoffSecs := 1, found := 0,
    subdomains := ∅ }

/-- One iteration of the loop, as seen from the enumerator, is driven by what
the adapter and the network do.  An adversarial adapter may produce any
sequence of these events:

* `queryNone` — `next_query` returned `None`;
* `searchFailed` — `search` returned an error, or `error_for_status` did;
* `bodyFailed` — `resp.text()` failed;
* `extracted es` — request and body read succeeded and `extract` produced
  the set of hostnames `es`. -/
inductive RoundEvent where
  | queryNone
  | searchFailed
  | bodyFailed
  | extracted (es : List String)
deriving DecidableEq

/-- Effect of a failed request (`src/enumerate/mod.rs` lines 186-193):
`retries += 1; backoff_secs *= 2;` then `continue` — `page`, `rounds` and the
set are untouched. -/
def stepSearchFailed (s : LoopState) : LoopState :=
  { s with retries := s.retries + 1, backoffSecs := s.backoffSecs * 2 }

/-- Effect of a failed body read (`src/enumerate/mod.rs` lines 200-204):
`retries += 1;` then `continue`. -/
def stepBodyFailed (s : LoopState) : LoopState :=
  { s with retries := s.retries + 1 }

/-- Effect of a successful round (`src/enumerate/mod.rs` lines 209-229):
the extracted set is unioned into `subdomains`, then the progress decision
`if found != subdomains.len()` runs, then `rounds += 1`.  Note the code
compares with `!=`, and `retries.saturating_sub(2)` is `Nat` subtraction. -/
def stepExtracted (es : List String) (s : LoopState) : LoopState :=
  let subs := s.subdomains ∪ es.toFinset
  if s.found ≠ subs.card then
    { s with subdomains := subs, found := subs.card,
             retries := s.retries - 2, rounds := s.rounds + 1 }
  else
    { s with subdomains := subs, page := s.page + 1,
             retries := s.retries + 1, rounds := s.rounds + 1 }

/-- The termination pre-check at the top of each iteration
(`src/enumerate/mod.rs` line 168):
`rounds >= MAX_ROUNDS || retries >= MAX_RETRIES || backoff_secs >= MAX_BACKOFF`. -/
def guardB (c : Settings) (s : LoopState) : Bool :=
  decide (c.maxRounds ≤ s.rounds) || decide (MAX_RETRIES ≤ s.retries) ||
    decide (MAX_BACKOFF ≤ s.backoffSecs)

/-- The enumerator loop (`src/enumerate/mod.rs` lines 166-230), run against an
event trace `tr` (the i-th consumed event is `tr i`).  `fuel` bounds the
number of iterations we unfold; `none` means the loop was still running after
`fuel` iterations, `some s` that it terminated (by the guard or by
`next_query` returning `None`) in state `s`. -/
def loopIter (c : Settings) (tr : Nat → RoundEvent) :
    Nat → Nat → LoopState → Option LoopState
  | 0, _, _ => none
  | fuel + 1, i, s =>
    if guardB c s then some s
    else
      match tr i with
      | .queryNone => some s
      | .searchFailed => loopIter c tr fuel (i + 1) (stepSearchFailed s)
      | .bodyFailed => loopIter c tr fuel (i + 1) (stepBodyFailed s)
      | .extracted es => loopIter c tr fuel (i + 1) (stepExtracted es s)

/-- `Enumerator::enumerate` returns the accumulated set of the final state. -/
def enumerate (c : Settings) (tr : Nat → RoundEvent) (fuel : Nat) :
    Option (Finset String) :=
  (loopIter c tr fuel 0 initState).map (fun s => s.subdomains)

/-- Ranking function for the loop: each non-terminal iteration strictly
decreases it (a successful round pays 3 by advancing `rounds` and can refund
at most 2 through `saturating_sub(retries, 2)`; every failure pays 1 through
`retries`). -/
def measureV (c : Settings) (s : LoopState) : Nat :=
  3 * (c.maxRounds - s.rounds) + (MAX_RETRIES - s.retries)

/-- Trace of an adapter whose `search` (or the status check) fails on every
call. -/
def allFailTr : Nat → RoundEvent := fun _ => .searchFailed

/-- An adversarial trace: two body-read failures before each progress round
pump `retries` back up exactly as fast as progress drains it, so neither
`rounds` (stuck at 3 < 4), nor `retries` (peak 9 < 10), nor `backoff_secs`
(constant 1 < 16) reaches its cap during the first 18 iterations. -/
def advEvents : List RoundEvent :=
  [.bodyFailed, .bodyFailed, .extracted ["a"],
   .bodyFailed, .bodyFailed, .extracted ["b"],
   .bodyFailed, .bodyFailed, .extracted ["c"],
   .bodyFailed, .bodyFailed, .bodyFailed, .bodyFailed, .bodyFailed,
   .bodyFailed, .bodyFailed, .bodyFailed, .bodyFailed,
   .extracted ["d"]]

/-- The adversarial trace as a function. -/
def advTr (i : Nat) : RoundEvent := advEvents.getD i .queryNone

/-- Settings of the adversarial adapter (`max_rounds = 4`). -/
def advSettings : Settings :=
  { name := "Adv", baseUrl := "", userAgent := "", maxRounds := 4 }

/-- Concrete settings used by witnesses. -/
def wSettings : Settings :=
  { name := "W", baseUrl := "", userAgent := "", maxRounds := 5 }

/-- A state whose `retries` has reached `MAX_RETRIES`. -/
def wRetriesState : LoopState :=
  { rounds := 0, retries := 10, page := 0, backoffSecs := 1, found := 0,
    subdomains := ∅ }

/-- A trace used by witnesses. -/
def wTr : Nat → RoundEvent := fun _ => .queryNone

/-! ## Google query construction (`src/enumerate/google.rs` lines 70-77)

`HashSet` iteration order is opaque; the set is modelled as the list of its
elements in iteration order. -/

/-- `Google::generate_query`:
`format!("site:{0} -www.{0}{1}", self.domain, found)` where `found` is
`subdomains.iter().fold(String::new(), |acc, d| format!("{} -{}", acc, d))`. -/
def googleGenerateQuery (domain : String) (subdomains : List String) :
    String :=
  let found := subdomains.foldl (fun acc d => acc ++ " -" ++ d) ""
  "site:" ++ domain ++ " -www." ++ domain ++ found

/-- Specification-side description of the exclusion terms: the concatenation
of one `" -" ++ s` term per element of the iteration order. -/
def dashTerms : List String → String
  | [] => ""
  | s :: rest => " -" ++ s ++ dashTerms rest

/-! ## Source registry (`src/enumerate/mod.rs` lines 61-73, `src/lib.rs`
lines 23-40, `enumerate-derive/src/lib.rs` `enum_vec`) -/

/-- The `meta` object VirusTotal stores between rounds
(`src/enumerate/virustotal.rs` lines 174-178). -/
structure VtMeta where
  count : Int
  cursor : Option String
deriving DecidableEq

/-- The variants of the `Engine` enum (`src/enumerate/mod.rs` lines 64-73),
in declaration order. -/
inductive EngineTag where
  | alienVault
  | bing
  | crtSh
  | dnsDumpster
  | google
  | hackerTarget
  | virusTotal
  | yahoo
deriving DecidableEq

/-- The Rust identifier of each `Engine` variant. -/
def engineTagName : EngineTag → String
  | .alienVault => "AlienVault"
  | .bing => "Bing"
  | .crtSh => "CrtSh"
  | .dnsDumpster => "DNSDumpster"
  | .google => "Google"
  | .hackerTarget => "HackerTarget"
  | .virusTotal => "VirusTotal"
  | .yahoo => "Yahoo"

/-- The closed tag list, in the `Engine` enum's declaration order. -/
def engineTags : List EngineTag :=
  [.alienVault, .bing, .crtSh, .dnsDumpster, .google, .hackerTarget,
   .virusTotal, .yahoo]

/-- The payload each `Engine` variant carries: the fields of the adapter
struct in the corresponding source file. -/
inductive EngineInstance where
  | alienVault (domain : String)
  | bing (domain : String)
  | crtSh (domain : String) (once : Bool)
  | dnsDumpster (domain : String)
  | google (domain : String)
  | hackerTarget (domain : String)
  | virusTotal (domain : String) (meta : Option VtMeta) (page : Nat)
  | yahoo (domain : String)
deriving DecidableEq

/-- `AlienVault::new` (`src/enumerate/alienvault.rs`). -/
def alienVaultNew (d : String) : EngineInstance := .alienVault d

/-- `Bing::new` (`src/enumerate/bing.rs`). -/
def bingNew (d : String) : EngineInstance := .bing d

/-- `CrtSh::new` (`src/enumerate/crtsh.rs`): `once` starts `false`. -/
def crtShNew (d : String) : EngineInstance := .crtSh d false

/-- `DNSDumpster::new` (`src/enumerate/dnsdumpster.rs`). -/
def dnsDumpsterNew (d : String) : EngineInstance := .dnsDumpster d

/-- `Google::new` (`src/enumerate/google.rs`). -/
def googleNew (d : String) : EngineInstance := .google d

/-- `HackerTarget::new` (`src/enumerate/hackertarget.rs`). -/
def hackerTargetNew (d : String) : EngineInstance := .hackerTarget d

/-- `VirusTotal::new` (`src/enumerate/virustotal.rs`): `meta` starts `None`,
`page` starts 0. -/
def virusTotalNew (d : String) : EngineInstance := .virusTotal d none 0

/-- `Yahoo::new` (`src/enumerate/yahoo.rs`). -/
def yahooNew (d : String) : EngineInstance := .yahoo d

/-- The per-tag constructor: the match in `run` (`src/lib.rs` lines 28-38)
restricted to the variants of `Engine`. -/
def engineNew : EngineTag → String → EngineInstance
  | .alienVault, d => alienVaultNew d
  | .bing, d => bingNew d
  | .crtSh, d => crtShNew d
  | .dnsDumpster, d => dnsDumpsterNew d
  | .google, d => googleNew d
  | .hackerTarget, d => hackerTargetNew d
  | .virusTotal, d => virusTotalNew d
  | .yahoo, d => yahooNew d

/-- The generated `Engine::enum_vec` helper
(`enumerate-derive/src/lib.rs` lines 216-243): one `Variant::new(domain)`
per variant, in declaration order. -/
def engineEnumVec (d : String) : List EngineInstance :=
  [alienVaultNew d, bingNew d, crtShNew d, dnsDumpsterNew d, googleNew d,
   hackerTargetNew d, virusTotalNew d, yahooNew d]

/-- The tag of an adapter instance. -/
def engineTagOf : EngineInstance → EngineTag
  | .alienVault _ => .alienVault
  | .bing _ => .bing
  | .crtSh _ _ => .crtSh
  | .dnsDumpster _ => .dnsDumpster
  | .google _ => .google
  | .hackerTarget _ => .hackerTarget
  | .virusTotal _ _ _ => .virusTotal
  | .yahoo _ => .yahoo

/-! ## A small JSON model standing in for `serde_json`

The structured extractors (`AlienVault`, `CrtSh`, `VirusTotal`) call
`serde_json::from_str`; we model it with an executable JSON parser plus
per-struct decoders that mirror the serde derives: required fields may not
be missing or duplicated, unknown fields are ignored, `i64` fields require a
plain in-range integer literal, and `Option<String>` fields treat a missing
key or `null` as `None`. -/

/-- JSON values.  A number records whether its literal was a plain integer
(no fraction, no exponent): only such literals deserialize into `i64`; for
other numbers the stored `Int` is unused. -/
inductive Json where
  | null
  | bool (b : Bool)
  | num (n : Int) (isInt : Bool)
  | str (s : String)
  | arr (elems : List Json)
  | obj (members : List (String × Json))

/-- JSON insignificant whitespace. -/
def jsonWs (c : Char) : Bool := c = ' ' || c = '\t' || c = '\n' || c = '\r'

/-- Skip insignificant whitespace. -/
def skipWs : List Char → List Char
  | [] => []
  | c :: cs => if jsonWs c then skipWs cs else c :: cs

/-- Strip a literal from the front, or fail. -/
def stripLit : List Char → List Char → Option (List Char)
  | [], cs => some cs
  | _ :: _, [] => none
  | p :: ps, c :: cs => if p = c then stripLit ps cs else none

/-- Hex digit value. -/
def hexVal (c : Char) : Option Nat :=
  if '0' ≤ c ∧ c ≤ '9' then some (c.toNat - 48)
  else if 'a' ≤ c ∧ c ≤ 'f' then some (c.toNat - 87)
  else if 'A' ≤ c ∧ c ≤ 'F' then some (c.toNat - 55)
  else none

/-- Body of a JSON string literal, after the opening quote; returns the
decoded content and the rest after the closing quote. -/
def parseStrBody : Nat → List Char → Option (List Char × List Char)
  | 0, _ => none
  | _ + 1, [] => none
  | fuel + 1, c :: cs =>
    if c = '"' then some ([], cs)
    else if c = '\\' then
      match cs with
      | [] => none
      | e :: cs2 =>
        if e = 'u' then
          match cs2 with
          | h1 :: h2 :: h3 :: h4 :: cs3 =>
            match hexVal h1, hexVal h2, hexVal h3, hexVal h4 with
            | some v1, some v2, some v3, some v4 =>
              (parseStrBody fuel cs3).map (fun r =>
                (Char.ofNat (((v1 * 16 + v2) * 16 + v3) * 16 + v4) :: r.1,
                 r.2))
            | _, _, _, _ => none
          | _ => none
        else
          match
            (if e = '"' then some '"'
             else if e = '\\' then some '\\'
             else if e = '/' then some '/'
             else if e = 'b' then some (Char.ofNat 8)
             else if e = 'f' then some (Char.ofNat 12)
             else if e = 'n' then some '\n'
             else if e = 'r' then some '\r'
             else if e = 't' then some '\t'
             else none) with
          | some d => (parseStrBody fuel cs2).map (fun r => (d :: r.1, r.2))
          | none => none
    else if c.toNat < 32 then none
    else (parseStrBody fuel cs).map (fun r => (c :: r.1, r.2))

/-- Longest digit span. -/
def spanDigits : List Char → List Char × List Char
  | [] => ([], [])
  | c :: cs =>
    if c.isDigit then
      let (d, r) := spanDigits cs
      (c :: d, r)
    else ([], c :: cs)

/-- Decimal digits to a natural number. -/
def digitsToNat (ds : List Char) : Nat :=
  ds.foldl (fun a c => a * 10 + (c.toNat - 48)) 0

/-- Optional fraction part; reports whether one was present. -/
def parseFrac : List Char → Option (Bool × List Char)
  | '.' :: r =>
    let (fd, rr) := spanDigits r
    if fd.isEmpty then none else some (true, rr)
  | cs => some (false, cs)

/-- Exponent digits after `e`/`E`. -/
def parseExpTail (r : List Char) : Option (Bool × List Char) :=
  let r1 := match r with
    | '+' :: rr => rr
    | '-' :: rr => rr
    | _ => r
  let (ds, rr) := spanDigits r1
  if ds.isEmpty then none else some (true, rr)

/-- Optional exponent part; reports whether one was present. -/
def parseExp : List Char → Option (Bool × List Char)
  | 'e' :: r => parseExpTail r
  | 'E' :: r => parseExpTail r
  | cs => some (false, cs)

/-- A JSON number literal. -/
def parseNumber (cs : List Char) : Option ((Int × Bool) × List Char) :=
  let (neg, cs1) := match cs with
    | '-' :: r => (true, r)
    | _ => (false, cs)
  let (ids, r1) := spanDigits cs1
  if ids.isEmpty then none
  else if 1 < ids.length && ids.headD '0' = '0' then none
  else
    match parseFrac r1 with
    | none => none
    | some (f, r2) =>
      match parseExp r2 with
      | none => none
      | some (e, r3) =>
        let isInt := !f && !e
        let v : Int := if neg then -(digitsToNat ids : Int) else
          (digitsToNat ids : Int)
        some ((if isInt then v else 0, isInt), r3)

mutual

/-- A JSON value (possibly preceded by whitespace). -/
def parseJson : Nat → List Char → Option (Json × List Char)
  | 0, _ => none
  | fuel + 1, cs =>
    match skipWs cs with
    | [] => none
    | c :: cs1 =>
      if c = 'n' then (stripLit ['u', 'l', 'l'] cs1).map ((Json.null, ·))
      else if c = 't' then
        (stripLit ['r', 'u', 'e'] cs1).map ((Json.bool true, ·))
      else if c = 'f' then
        (stripLit ['a', 'l', 's', 'e'] cs1).map ((Json.bool false, ·))
      else if c = '"' then
        (parseStrBody (fuel + 1) cs1).map
          (fun r => (Json.str (String.mk r.1), r.2))
      else if c = '[' then
        match skipWs cs1 with
        | ']' :: cs2 => some (Json.arr [], cs2)
        | cs2 =>
          (parseElems fuel cs2).map (fun r => (Json.arr r.1, r.2))
      else if c = '{' then
        match skipWs cs1 with
        | '}' :: cs2 => some (Json.obj [], cs2)
        | cs2 =>
          (parseMembers fuel cs2).map (fun r => (Json.obj r.1, r.2))
      else if c = '-' || c.isDigit then
        (parseNumber (c :: cs1)).map (fun r => (Json.num r.1.1 r.1.2, r.2))
      else none

/-- Comma-separated values up to the closing `]`. -/
def parseElems : Nat → List Char → Option (List Json × List Char)
  | 0, _ => none
  | fuel + 1, cs =>
    match parseJson fuel cs with
    | none => none
    | some (v, r) =>
      match skipWs r with
      | ',' :: r2 =>
        (parseElems fuel r2).map (fun t => (v :: t.1, t.2))
      | ']' :: r2 => some ([v], r2)
      | _ => none

/-- Comma-separated `"key": value` members up to the closing brace. -/
def parseMembers : Nat → List Char → Option (List (String × Json) × List Char)
  | 0, _ => none
  | fuel + 1, cs =>
    match skipWs cs with
    | '"' :: cs1 =>
      match parseStrBody (fuel + 1) cs1 with
      | none => none
      | some (key, r) =>
        match skipWs r with
        | ':' :: r2 =>
          match parseJson fuel r2 with
          | none => none
          | some (v, r3) =>
            match skipWs r3 with
            | ',' :: r4 =>
              (parseMembers fuel r4).map
                (fun t => ((String.mk key, v) :: t.1, t.2))
            | '}' :: r4 => some ([(String.mk key, v)], r4)
            | _ => none
        | _ => none
    | _ => none

end

/-- `serde_json::from_str`'s parsing phase: a single JSON document with
nothing but whitespace after it. -/
def jsonParse (s : String) : Option Json :=
  match parseJson (2 * s.data.length + 2) s.data with
  | some (v, rest) => if (skipWs rest).isEmpty then some v else none
  | none => none

/-- The values of all members with the given key. -/
def findMember (name : String) (ms : List (String × Json)) : List Json :=
  (ms.filter (fun m => m.1 = name)).map (fun m => m.2)

/-- A required struct field: present exactly once (serde rejects missing and
duplicate known fields; unknown fields are ignored). -/
def reqField (name : String) (ms : List (String × Json)) : Option Json :=
  match findMember name ms with
  | [v] => some v
  | _ => none

/-- Deserialize a JSON string. -/
def asStr : Json → Option String
  | .str s => some s
  | _ => none

/-- Deserialize a JSON array. -/
def asArr : Json → Option (List Json)
  | .arr l => some l
  | _ => none

/-- Deserialize a JSON object. -/
def asObj : Json → Option (List (String × Json))
  | .obj ms => some ms
  | _ => none

/-- Deserialize an `i64`: a plain in-range integer literal. -/
def asI64 : Json → Option Int
  | .num n isInt =>
    if isInt && decide (-(2 ^ 63) ≤ n) && decide (n < 2 ^ 63) then some n
    else none
  | _ => none

/-! ## Character-list splitting (Rust `str::split` / `split_once`) -/

/-- Split on a separator character; like Rust `split`, adjacent separators
and edge separators produce empty pieces, and the empty input gives one
empty piece. -/
def splitOnChar (sep : Char) : List Char → List (List Char)
  | [] => [[]]
  | c :: cs =>
    if c = sep then [] :: splitOnChar sep cs
    else
      match splitOnChar sep cs with
      | [] => [[c]]
      | l :: ls => (c :: l) :: ls

/-- String-level wrapper for `splitOnChar`. -/
def splitStr (sep : Char) (s : String) : List String :=
  (splitOnChar sep s.data).map (fun l => String.mk l)

/-- Rust `str::split_once`: the part before the first separator, if any. -/
def splitOnceChar (sep : Char) : List Char → Option (List Char)
  | [] => none
  | c :: cs =>
    if c = sep then some []
    else (splitOnceChar sep cs).map (fun l => c :: l)

/-- Rust `str::ends_with` for strings. -/
def strEndsWith (s suff : String) : Bool := suff.data.isSuffixOf s.data

/-! ## Structured extractors -/

/-- One `Item` of the AlienVault response
(`src/enumerate/alienvault.rs` lines 87-90): an object with a string
`hostname` field. -/
def decodeAvItem (j : Json) : Option String :=
  ((asObj j).bind (reqField "hostname")).bind asStr

/-- `PassiveDns` (`src/enumerate/alienvault.rs` lines 81-85): object with a
`passive_dns` array of items and an `i64` `count`; yields the hostname list. -/
def decodePassiveDns (j : Json) : Option (List String) := do
  let ms ← asObj j
  let pd ← reqField "passive_dns" ms
  let items ← asArr pd
  let hosts ← items.mapM decodeAvItem
  let cnt ← reqField "count" ms
  let _ ← asI64 cnt
  pure hosts

/-- `AlienVault::extract` (`src/enumerate/alienvault.rs` lines 28-36):
parse, collect the hostnames into a set, then
`found.retain(|d| d.ends_with(&self.domain))`. -/
def alienvaultExtract (domain body : String) : Finset String :=
  match (jsonParse body).bind decodePassiveDns with
  | some hosts => hosts.toFinset.filter (fun h => strEndsWith h domain)
  | none => ∅

/-- One `Item` of the crt.sh response (`src/enumerate/crtsh.rs` lines
95-98): an object with a string `name_value` field. -/
def decodeCrtItem (j : Json) : Option String :=
  ((asObj j).bind (reqField "name_value")).bind asStr

/-- `CrtShResponse` from `Vec<Item>` (`src/enumerate/crtsh.rs` lines 77-93). -/
def decodeCrtSh (j : Json) : Option (List String) :=
  (asArr j).bind (fun items => items.mapM decodeCrtItem)

/-- `CrtSh::extract` (`src/enumerate/crtsh.rs` lines 30-36): parse failures
yield the default (empty) set; each `name_value` is split on `"\n"`. -/
def crtshExtract (body : String) : Finset String :=
  match (jsonParse body).bind decodeCrtSh with
  | some nvs => (nvs.flatMap (fun nv => splitStr '\n' nv)).toFinset
  | none => ∅

/-- One `Domain` of the VirusTotal response
(`src/enumerate/virustotal.rs` lines 169-172). -/
def decodeVtDomain (j : Json) : Option String :=
  ((asObj j).bind (reqField "id")).bind asStr

/-- `VirusTotalResponse` (`src/enumerate/virustotal.rs` lines 149-167):
`data` projected to the set of `id`s, `meta` with an `i64` `count` and an
`Option<String>` `cursor` (missing key or `null` is `None`). -/
def decodeVt (j : Json) : Option (Finset String × VtMeta) := do
  let ms ← asObj j
  let dataJ ← reqField "data" ms
  let items ← asArr dataJ
  let ids ← items.mapM decodeVtDomain
  let metaJ ← reqField "meta" ms
  let mObj ← asObj metaJ
  let cntJ ← reqField "count" mObj
  let cnt ← asI64 cntJ
  let cur ← (match findMember "cursor" mObj with
    | [] => some none
    | [Json.null] => some none
    | [Json.str s] => some (some s)
    | _ => none)
  pure (ids.toFinset, ⟨cnt, cur⟩)

/-- `VirusTotal::extract` (`src/enumerate/virustotal.rs` lines 71-81): on a
successful parse the new `meta` is stored and the `data` set returned; on a
parse failure the set is empty and the stored `meta` is unchanged. -/
def vtExtract (st : Option VtMeta) (body : String) :
    Finset String × Option VtMeta :=
  match (jsonParse body).bind decodeVt with
  | some (d, m) => (d, some m)
  | none => (∅, st)

/-- `HackerTarget::extract` (`src/enumerate/hackertarget.rs` lines 28-36):
split on newlines, keep lines with a comma, take the first comma-delimited
field. -/
def hackertargetExtract (body : String) : Finset String :=
  ((splitStr '\n' body).filterMap
    (fun l => (splitOnceChar ',' l.data).map (fun p => String.mk p))).toFinset

/-! ## Regex extractors

Bing, Google, Yahoo, Baidu and DNSDumpster extract with
`regex.captures_iter(body)`, collecting the `subdomain` capture of each
leftmost-first, non-overlapping match.  None of the five patterns can match
a newline anywhere (`.` in Rust's regex crate does not match `\n`, the
label class `[[:alnum:]-]` and the literal fragments contain no `\n`, and
the interpolated domain is a hostname), so every match lies within one line
and the iteration over the whole body is exactly the concatenation of the
per-line iterations.  Each extractor is embedded as a per-line scanner:
`scanLine` tries every start position from the left and continues after the
end of each match, and a per-pattern `...MatchAt` decides whether a match
begins at the given position, returning the capture and the text after the
match, following the backtracking preference order of the pattern (lazy
`.*?` prefers the shortest completion, the greedy label fragment the
longest). -/

/-- First occurrence of a literal: the text before it and the text after
it.  This is where a lazy `.*?` followed by the literal settles. -/
def findLit (lit : List Char) : List Char → Option (List Char × List Char)
  | [] => (stripLit lit []).map (fun r => (([] : List Char), r))
  | c :: cs =>
    match stripLit lit (c :: cs) with
    | some r => some ([], r)
    | none => (findLit lit cs).map (fun p => (c :: p.1, p.2))

/-- One DNS label of `SUBDOMAIN_RE_STR` (`src/enumerate/mod.rs` line 39):
nonempty, ASCII alphanumerics and hyphens, no hyphen at either end. -/
def labelOk (l : List Char) : Bool :=
  !l.isEmpty && l.all (fun ch => ch.isAlphanum || ch = '-') &&
    (l.headD '-').isAlphanum && (l.getLastD '-').isAlphanum

/-- Membership in the language of `SUBDOMAIN_RE_STR`: dot-separated valid
labels (and at least one). -/
def subOk (cs : List Char) : Bool := (splitOnChar '.' cs).all labelOk

/-- All ways to split a text into prefix and suffix, longest prefix first
(the order in which a greedy fragment hands candidates to what follows). -/
def splitsDesc (cs : List Char) : List (List Char × List Char) :=
  ((List.range (cs.length + 1)).reverse).map (fun n => (cs.take n, cs.drop n))

/-- Match of Bing's pattern
`<cite>https:\/\/(?<subdomain>.*?\.{domain}).*?<\/cite>`
(`src/enumerate/bing.rs` line 20) beginning at this position: the literal
head, then the lazy capture settling at the first `.domain`, then the lazy
gap settling at the first `</cite>`. -/
def bingMatchAt (domain : List Char) (cs : List Char) :
    Option (List Char × List Char) :=
  match stripLit "<cite>https://".data cs with
  | none => none
  | some rest =>
    match findLit ('.' :: domain) rest with
    | none => none
    | some (lazy, rest2) =>
      match findLit "</cite>".data rest2 with
      | none => none
      | some (_, rest3) => some (lazy ++ '.' :: domain, rest3)

/-- Match of Baidu's pattern
`<span class="c-color-gray" aria-hidden="true">(?<subdomain>.*?\.{domain})\/<\/span>`
(`src/enumerate/baidu.rs` lines 16-18) beginning at this position: the lazy
capture must be immediately followed by `/</span>`, so it settles at the
first position where `.domain/</span>` completes. -/
def baiduMatchAt (domain : List Char) (cs : List Char) :
    Option (List Char × List Char) :=
  match stripLit "<span class=\"c-color-gray\" aria-hidden=\"true\">".data
      cs with
  | none => none
  | some rest =>
    match findLit ('.' :: domain ++ "/</span>".data) rest with
    | none => none
    | some (lazy, rest2) => some (lazy ++ '.' :: domain, rest2)

/-- Match of DNSDumpster's pattern
`<td>(?<subdomain>.*?\.{domain})<\/td>` (`src/enumerate/dnsdumpster.rs`
line 23) beginning at this position. -/
def dnsdMatchAt (domain : List Char) (cs : List Char) :
    Option (List Char × List Char) :=
  match stripLit "<td>".data cs with
  | none => none
  | some rest =>
    match findLit ('.' :: domain ++ "</td>".data) rest with
    | none => none
    | some (lazy, rest2) => some (lazy ++ '.' :: domain, rest2)

/-- Match of Google's pattern
`(?<subdomain>{SUBDOMAIN_RE_STR}\.{domain}) &#8250;`
(`src/enumerate/google.rs` line 41) beginning at this position: a greedy
label sequence, then `.domain`, then the literal ` &#8250;`. -/
def googleMatchAt (domain : List Char) (cs : List Char) :
    Option (List Char × List Char) :=
  (splitsDesc cs).findSome? (fun p =>
    if subOk p.1 then
      (stripLit ('.' :: domain ++ " &#8250;".data) p.2).map
        (fun rest => (p.1 ++ '.' :: domain, rest))
    else none)

/-- Match of Yahoo's pattern
`<span>(?<subdomain>{SUBDOMAIN_RE_STR}\.{domain})<\/span>`
(`src/enumerate/yahoo.rs` line 34) beginning at this position. -/
def yahooMatchAt (domain : List Char) (cs : List Char) :
    Option (List Char × List Char) :=
  match stripLit "<span>".data cs with
  | none => none
  | some rest =>
    (splitsDesc rest).findSome? (fun p =>
      if subOk p.1 then
        (stripLit ('.' :: domain ++ "</span>".data) p.2).map
          (fun r2 => (p.1 ++ '.' :: domain, r2))
      else none)

/-- `captures_iter` within one line: try each start position from the left;
on a match, record the capture and continue right after the match end. -/
def scanLine (m : List Char → Option (List Char × List Char)) :
    Nat → List Char → List (List Char)
  | 0, _ => []
  | _ + 1, [] => []
  | fuel + 1, c :: cs =>
    match m (c :: cs) with
    | some (cap, rest) => cap :: scanLine m fuel rest
    | none => scanLine m fuel cs

/-- A regex extractor: per-line scanning (no pattern matches a newline),
captures collected into a set. -/
def linewiseExtract (m : List Char → Option (List Char × List Char))
    (body : String) : Finset String :=
  ((splitOnChar '\n' body.data).flatMap
    (fun l => (scanLine m (l.length + 1) l).map
      (fun cap => String.mk cap))).toFinset

/-- `Bing::extract` (`src/enumerate/bing.rs` lines 19-24, via the derived
implementation in `enumerate-derive/src/lib.rs` lines 98-116). -/
def bingExtract (domain body : String) : Finset String :=
  linewiseExtract (bingMatchAt domain.data) body

/-- `Google::extract` (`src/enumerate/google.rs` lines 35-49), as a set. -/
def googleExtract (domain body : String) : Finset String :=
  linewiseExtract (googleMatchAt domain.data) body

/-- `Yahoo::extract` (`src/enumerate/yahoo.rs` lines 29-42), as a set. -/
def yahooExtract (domain body : String) : Finset String :=
  linewiseExtract (yahooMatchAt domain.data) body

/-- `Baidu::extract` (`src/enumerate/baidu.rs` lines 15-22, derived). -/
def baiduExtract (domain body : String) : Finset String :=
  linewiseExtract (baiduMatchAt domain.data) body

/-- `DNSDumpster::extract` (`src/enumerate/dnsdumpster.rs` lines 22-27,
derived). -/
def dnsdumpsterExtract (domain body : String) : Finset String :=
  linewiseExtract (dnsdMatchAt domain.data) body

/-- The AlienVault passive-DNS body used to exhibit the `ends_with`
re-filter keeping a hostname that merely ends in the domain without a label
boundary. -/
def avNoiseBody : String :=
  "\x7b\"passive_dns\":[\x7b\"hostname\":\"index.com\"\x7d],\"count\":1\x7d"

/-! ## VirusTotal anti-abuse header
(`src/enumerate/virustotal.rs` lines 49-68)

`f64` arithmetic is modelled by exact rationals.  At the magnitudes involved
(`1e10 * (1 + u)` for `u ∈ [0,1)`) the claimed bounds are robust to `f64`
rounding, and `u % 5e4` is an exact operation (`fmod` is exact, and
`u < 5e4`). -/

/-- Truncation toward zero, as Rust `f64` to-integer truncation. -/
def truncQ (q : ℚ) : ℤ := if 0 ≤ q then ⌊q⌋ else ⌈q⌉

/-- Rust `%` on floats: `fmod`, `a - m * trunc(a / m)`. -/
def fmodQ (a m : ℚ) : ℚ := a - m * (truncQ (a / m) : ℚ)

/-- The `entropy` value: `1e10 * (1.0 + fastrand::f64() % 5e4)` at draw `u`. -/
def vtEntropy (u : ℚ) : ℚ := 10000000000 * (1 + fmodQ u 50000)

/-- Rust `f64::round`: round half away from zero. -/
def roundHalfAway (q : ℚ) : ℤ := if 0 ≤ q then ⌊q + 1 / 2⌋ else ⌈q - 1 / 2⌉

/-- The `random` closure: `if entropy < 50.0 { -1 } else { entropy.round() }`. -/
def vtAntiAbuseRandom (u : ℚ) : ℤ :=
  if vtEntropy u < 50 then -1 else roundHalfAway (vtEntropy u)

/-- The string that `compute_anti_abuse_header` base64-encodes:
`format!("{random}-ZG9udCBiZSBldmls-{secs_since_epoch}")`. -/
def vtAntiAbusePayload (u : ℚ) (t : Nat) : String :=
  toString (vtAntiAbuseRandom u) ++ "-ZG9udCBiZSBldmls-" ++ toString t

end Sublist3r

namespace Sublist3r

/-! ## Helper lemmas about the loop -/

/-- Unfolding: when the guard holds, the iteration breaks at the pre-check. -/
theorem loopIter_stop (c : Settings) (tr : Nat → RoundEvent) (fuel i : Nat)
    (s : LoopState) (hg : guardB c s = true) :
    loopIter c tr (fuel + 1) i s = some s := by
  rw [loopIter, if_pos hg]

/-- Unfolding: when the guard does not hold, the iteration proceeds into the
body and dispatches on what the adapter does. -/
theorem loopIter_go (c : Settings) (tr : Nat → RoundEvent) (fuel i : Nat)
    (s : LoopState) (hg : guardB c s = false) :
    loopIter c tr (fuel + 1) i s =
      match tr i with
      | .queryNone => some s
      | .searchFailed => loopIter c tr fuel (i + 1) (stepSearchFailed s)
      | .bodyFailed => loopIter c tr fuel (i + 1) (stepBodyFailed s)
      | .extracted es => loopIter c tr fuel (i + 1) (stepExtracted es s) := by
  rw [loopIter, if_neg (by simp [hg])]

/-- Unfolding: a failed request round steps into `stepSearchFailed`. -/
theorem loopIter_fail_step (c : Settings) (tr : Nat → RoundEvent)
    (fuel i : Nat) (s : LoopState) (hg : guardB c s = false)
    (he : tr i = .searchFailed) :
    loopIter c tr (fuel + 1) i s =
      loopIter c tr fuel (i + 1) (stepSearchFailed s) := by
  rw [loopIter_go c tr fuel i s hg, he]

/-- The guard, spelled out arithmetically. -/
theorem guardB_false_iff (c : Settings) (s : LoopState) :
    guardB c s = false ↔
      s.rounds < c.maxRounds ∧ s.retries < MAX_RETRIES ∧
        s.backoffSecs < MAX_BACKOFF := by
  simp [guardB, Nat.lt_iff_add_one_le]
  omega

/-- Each non-terminal event strictly decreases the ranking function. -/
theorem measureV_decreases (c : Settings) (s : LoopState)
    (hg : guardB c s = false) :
    measureV c (stepSearchFailed s) < measureV c s ∧
      measureV c (stepBodyFailed s) < measureV c s ∧
      ∀ es, measureV c (stepExtracted es s) < measureV c s := by
  rw [guardB_false_iff] at hg
  obtain ⟨h1, h2, h3⟩ := hg
  refine ⟨?_, ?_, ?_⟩
  · simp only [measureV, stepSearchFailed, MAX_RETRIES] at *
    omega
  · simp only [measureV, stepBodyFailed, MAX_RETRIES] at *
    omega
  · intro es
    simp only [measureV, stepExtracted, MAX_RETRIES] at *
    split <;> simp <;> omega

/-- Fuel exceeding the ranking function suffices for the loop to settle. -/
theorem loopIter_isSome (c : Settings) (tr : Nat → RoundEvent) :
    ∀ fuel i s, measureV c s < fuel → (loopIter c tr fuel i s).isSome := by
  intro fuel
  induction fuel with
  | zero => intro i s h; omega
  | succ n ih =>
    intro i s h
    by_cases hg : guardB c s = true
    · rw [loopIter_stop c tr n i s hg]
      rfl
    · have hg' : guardB c s = false := by
        revert hg
        cases guardB c s <;> simp
      obtain ⟨d1, d2, d3⟩ := measureV_decreases c s hg'
      rw [loopIter_go c tr n i s hg']
      cases htr : tr i with
      | queryNone => rfl
      | searchFailed => exact ih (i + 1) _ (by omega)
      | bodyFailed => exact ih (i + 1) _ (by omega)
      | extracted es => exact ih (i + 1) _ (by have := d3 es; omega)

/-! ## Claim theorems -/

/-- C1: for every adapter (settings, trace) and every state, the loop checks
`rounds >= MAX_ROUNDS || retries >= MAX_RETRIES || backoff_secs >= MAX_BACKOFF`
at the top of the iteration, with `MAX_RETRIES = 10` and `MAX_BACKOFF = 16`;
it breaks there, returning the accumulated state unchanged, exactly when that
disjunction holds, and otherwise the iteration proceeds into the body. -/
theorem guard_precheck_spec (c : Settings) (s : LoopState)
    (tr : Nat → RoundEvent) (fuel i : Nat) :
    MAX_RETRIES = 10 ∧ MAX_BACKOFF = 16 ∧
    (guardB c s = true ↔
      (c.maxRounds ≤ s.rounds ∨ MAX_RETRIES ≤ s.retries ∨
        MAX_BACKOFF ≤ s.backoffSecs)) ∧
    (guardB c s = true → loopIter c tr (fuel + 1) i s = some s) ∧
    (guardB c s = false →
      loopIter c tr (fuel + 1) i s =
        match tr i with
        | .queryNone => some s
        | .searchFailed => loopIter c tr fuel (i + 1) (stepSearchFailed s)
        | .bodyFailed => loopIter c tr fuel (i + 1) (stepBodyFailed s)
        | .extracted es => loopIter c tr fuel (i + 1) (stepExtracted es s)) := by
  refine ⟨rfl, rfl, ?_, loopIter_stop c tr fuel i s, loopIter_go c tr fuel i s⟩
  simp only [guardB, Bool.or_eq_true, decide_eq_true_eq, or_assoc]

/-- Witness for C1 at a concrete state with `retries = 10`: the guard holds
and the loop terminates returning that state. -/
theorem guard_precheck_spec_witness :
    guardB wSettings wRetriesState = true ∧
      loopIter wSettings wTr 3 0 wRetriesState = some wRetriesState :=
  ⟨by decide,
   (guard_precheck_spec wSettings wRetriesState wTr 2 0).2.2.2.1 (by decide)⟩

/-- C2: on a round whose request and body read both succeed (and assuming the
loop invariant `found = |S|` that holds at every check), if `|S|` strictly
grew after unioning the extracted set then `found` becomes the new `|S|`,
`retries` drops by 2 saturating at 0, and `page` is unchanged; otherwise
`page` is incremented and `retries` incremented. -/
theorem progress_decision_spec (s : LoopState) (es : List String)
    (h : s.found = s.subdomains.card) :
    (s.found < (s.subdomains ∪ es.toFinset).card →
      (stepExtracted es s).found = (s.subdomains ∪ es.toFinset).card ∧
      (stepExtracted es s).retries = s.retries - 2 ∧
      (stepExtracted es s).page = s.page ∧
      (stepExtracted es s).subdomains = s.subdomains ∪ es.toFinset) ∧
    (¬ s.found < (s.subdomains ∪ es.toFinset).card →
      (stepExtracted es s).page = s.page + 1 ∧
      (stepExtracted es s).retries = s.retries + 1 ∧
      (stepExtracted es s).found = s.found ∧
      (stepExtracted es s).subdomains = s.subdomains ∪ es.toFinset) := by
  have hle : s.subdomains.card ≤ (s.subdomains ∪ es.toFinset).card :=
    Finset.card_le_card Finset.subset_union_left
  constructor
  · intro hlt
    have hne : s.found ≠ (s.subdomains ∪ es.toFinset).card := by omega
    simp [stepExtracted, hne]
  · intro hge
    have heq : s.found = (s.subdomains ∪ es.toFinset).card := by omega
    simp [stepExtracted, heq]

/-- The hypothesis of `progress_decision_spec` is the loop invariant
`found = |S|`: it holds initially and is restored by every transition, so it
holds at every check of every run. -/
theorem found_card_invariant (es : List String) (s : LoopState) :
    initState.found = initState.subdomains.card ∧
    (stepSearchFailed s).found = s.found ∧
    (stepSearchFailed s).subdomains = s.subdomains ∧
    (stepBodyFailed s).found = s.found ∧
    (stepBodyFailed s).subdomains = s.subdomains ∧
    (stepExtracted es s).found = (stepExtracted es s).subdomains.card := by
  refine ⟨rfl, rfl, rfl, rfl, rfl, ?_⟩
  by_cases hne : s.found = (s.subdomains ∪ es.toFinset).card
  · simp [stepExtracted, hne]
  · simp [stepExtracted, hne]

/-- Witness for C2: from the initial state, extracting `["a"]` grows the set,
so `found` becomes 1, `retries` stays 0 (saturating) and `page` stays 0. -/
theorem progress_decision_spec_witness :
    0 < ((∅ : Finset String) ∪ ["a"].toFinset).card ∧
      (stepExtracted ["a"] initState).found =
        ((∅ : Finset String) ∪ ["a"].toFinset).card ∧
      (stepExtracted ["a"] initState).retries = 0 ∧
      (stepExtracted ["a"] initState).page = 0 := by
  have h := (progress_decision_spec initState ["a"] (by decide)).1 (by decide)
  exact ⟨by decide, h.1, h.2.1, h.2.2.1⟩

/-- C3 (amended): for every adapter and every adversarial trace, the loop
settles within `3 * max_rounds + MAX_RETRIES + 1` iterations.  The spec's
bound of `max_rounds + MAX_RETRIES + log2(MAX_BACKOFF)` is too small — see
`loop_iteration_bound_counterexample` — because a body-read failure advances
neither `rounds` nor `backoff_secs`, and each progress round can absorb two
of its `retries` increments via `saturating_sub(retries, 2)`. -/
theorem loop_iteration_bound (c : Settings) (tr : Nat → RoundEvent) :
    ∃ s, loopIter c tr (3 * c.maxRounds + MAX_RETRIES + 1) 0 initState =
      some s := by
  rw [← Option.isSome_iff_exists]
  apply loopIter_isSome
  simp [measureV, initState, MAX_RETRIES]

/-- C3 counterexample: with `max_rounds = 4`, the adversarial trace keeps the
loop running past `max_rounds + MAX_RETRIES + log2(MAX_BACKOFF) = 18`
iterations — after 18 full iterations it still has not terminated. -/
theorem loop_iteration_bound_counterexample :
    loopIter advSettings advTr (advSettings.maxRounds + MAX_RETRIES + 4) 0
      initState = none := by decide

/-- C4: against an adapter whose `search` (or status check) always fails, the
loop exits within 5 iterations returning the empty set; a failed request adds
1 to `retries` and doubles `backoff_secs` while touching nothing else, and
`backoff_secs` walks the sequence 1, 2, 4, 8, 16, the cap `16` being reached
after the fourth failure, with `page`, `rounds` and S never changed. -/
theorem all_failures_backoff_cap (c : Settings) (h : 1 ≤ c.maxRounds) :
    (∀ fuel, 5 ≤ fuel →
      loopIter c allFailTr fuel 0 initState =
        some { rounds := 0, retries := 4, page := 0, backoffSecs := 16,
               found := 0, subdomains := ∅ }) ∧
    (∀ s, stepSearchFailed s =
      { s with retries := s.retries + 1, backoffSecs := s.backoffSecs * 2 }) ∧
    (∀ k, k ≤ 4 → stepSearchFailed^[k] initState =
      { rounds := 0, retries := k, page := 0, backoffSecs := 2 ^ k,
        found := 0, subdomains := ∅ }) ∧
    enumerate c allFailTr 5 = some ∅ := by
  have hg : ∀ k b, k ≤ 3 → b ≤ 8 →
      guardB c { rounds := 0, retries := k, page := 0, backoffSecs := b,
                 found := 0, subdomains := ∅ } = false := by
    intro k b hk hb
    rw [guardB_false_iff]
    simp only [MAX_RETRIES, MAX_BACKOFF]
    omega
  have hrun : ∀ g, loopIter c allFailTr (g + 5) 0 initState =
      some { rounds := 0, retries := 4, page := 0, backoffSecs := 16,
             found := 0, subdomains := ∅ } := by
    intro g
    have d1 : stepSearchFailed initState =
        { rounds := 0, retries := 1, page := 0, backoffSecs := 2, found := 0,
          subdomains := ∅ } := by decide
    have d2 : stepSearchFailed
        { rounds := 0, retries := 1, page := 0, backoffSecs := 2, found := 0,
          subdomains := ∅ } =
        { rounds := 0, retries := 2, page := 0, backoffSecs := 4, found := 0,
          subdomains := ∅ } := by decide
    have d3 : stepSearchFailed
        { rounds := 0, retries := 2, page := 0, backoffSecs := 4, found := 0,
          subdomains := ∅ } =
        { rounds := 0, retries := 3, page := 0, backoffSecs := 8, found := 0,
          subdomains := ∅ } := by decide
    have d4 : stepSearchFailed
        { rounds := 0, retries := 3, page := 0, backoffSecs := 8, found := 0,
          subdomains := ∅ } =
        { rounds := 0, retries := 4, page := 0, backoffSecs := 16, found := 0,
          subdomains := ∅ } := by decide
    rw [show g + 5 = g + 4 + 1 from rfl,
      loopIter_fail_step c allFailTr (g + 4) 0 initState
        (hg 0 1 (by omega) (by omega)) rfl, d1,
      show g + 4 = g + 3 + 1 from rfl,
      loopIter_fail_step c allFailTr (g + 3) 1 _
        (hg 1 2 (by omega) (by omega)) rfl, d2,
      show g + 3 = g + 2 + 1 from rfl,
      loopIter_fail_step c allFailTr (g + 2) 2 _
        (hg 2 4 (by omega) (by omega)) rfl, d3,
      show g + 2 = g + 1 + 1 from rfl,
      loopIter_fail_step c allFailTr (g + 1) 3 _
        (hg 3 8 (by omega) (by omega)) rfl, d4,
      show g + 1 = g + 0 + 1 from rfl,
      loopIter_stop c allFailTr (g + 0) 4 _ (by simp [guardB, MAX_BACKOFF])]
  refine ⟨?_, fun s => rfl, ?_, ?_⟩
  · intro fuel hf
    obtain ⟨g, rfl⟩ := Nat.exists_eq_add_of_le hf
    rw [Nat.add_comm]
    exact hrun g
  · intro k hk
    interval_cases k <;> decide
  · rw [enumerate, hrun 0]
    rfl

/-- Witness for C4 at `max_rounds = 5`: five iterations suffice and the
returned set is empty. -/
theorem all_failures_backoff_cap_witness :
    loopIter wSettings allFailTr 5 0 initState =
      some { rounds := 0, retries := 4, page := 0, backoffSecs := 16,
             found := 0, subdomains := ∅ } ∧
    enumerate wSettings allFailTr 5 = some ∅ := by
  have h := all_failures_backoff_cap wSettings (by decide)
  exact ⟨h.1 5 (by decide), h.2.2.2⟩

/-- The fold building the exclusion list appends one `" -" ++ s` term per
element, in order. -/
theorem foldl_dashTerms (l : List String) (acc : String) :
    l.foldl (fun a s => a ++ " -" ++ s) acc = acc ++ dashTerms l := by
  induction l generalizing acc with
  | nil => rw [List.foldl_nil, dashTerms, String.append_empty]
  | cons x xs ih =>
    rw [List.foldl_cons, ih, dashTerms, ← String.append_assoc,
      ← String.append_assoc]

/-- C7: for every domain and finding list, the Google query is
`site:D -www.D` followed by one ` -s` term per finding, and on the two seed
cases it equals the exact strings the spec gives. -/
theorem google_query_spec (d : String) (l : List String) :
    googleGenerateQuery d l =
      "site:" ++ d ++ " -www." ++ d ++ dashTerms l ∧
    googleGenerateQuery "example.com" [] =
      "site:example.com -www.example.com" ∧
    googleGenerateQuery "example.com" ["app.example.com"] =
      "site:example.com -www.example.com -app.example.com" := by
  refine ⟨?_, by decide, by decide⟩
  show "site:" ++ d ++ " -www." ++ d ++ l.foldl (fun a s => a ++ " -" ++ s) ""
      = _
  rw [foldl_dashTerms l "", String.empty_append]

/-- C9 (amended): the source registry is the closed tag set
`{AlienVault, Bing, CrtSh, DNSDumpster, Google, HackerTarget, VirusTotal,
Yahoo}` — eight tags, without `Baidu` — each tag has a constructor mapping it
plus the domain to its adapter instance, and the `enum_vec` helper returns
exactly these eight adapters, one per tag, in declaration order. -/
theorem engine_registry_spec (d : String) :
    engineEnumVec d = engineTags.map (fun t => engineNew t d) ∧
    (engineEnumVec d).map engineTagOf = engineTags ∧
    engineTags.Nodup ∧
    (∀ t : EngineTag, t ∈ engineTags) ∧
    engineTags.length = 8 := by
  refine ⟨rfl, rfl, by decide, fun t => by cases t <;> decide, rfl⟩

/-- C9 counterexample: the registry has no `Baidu` tag and does not have nine
members, refuting the claimed nine-tag set. -/
theorem engine_registry_counterexample :
    ¬ "Baidu" ∈ engineTags.map engineTagName ∧ engineTags.length ≠ 9 := by
  decide

/-- C10: for every draw `u ∈ [0,1)`, `u % 5e4 = u`, so the computed entropy
`1e10 * (1 + u % 5e4)` lies in `[1e10, 2e10)`; in particular it is never
below 50, the `-1` branch is unreachable, and the payload prefix before
`-ZG9udCBiZSBldmls-` is the decimal rounding of that entropy. -/
theorem anti_abuse_entropy_spec (u : ℚ) (t : Nat) (h0 : 0 ≤ u)
    (h1 : u < 1) :
    fmodQ u 50000 = u ∧
    (10000000000 : ℚ) ≤ vtEntropy u ∧ vtEntropy u < 20000000000 ∧
    ¬ vtEntropy u < 50 ∧
    vtAntiAbuseRandom u = roundHalfAway (vtEntropy u) ∧
    (10000000000 : ℤ) ≤ vtAntiAbuseRandom u ∧
    vtAntiAbuseRandom u ≤ 20000000000 ∧
    vtAntiAbusePayload u t =
      toString (roundHalfAway (vtEntropy u)) ++ "-ZG9udCBiZSBldmls-" ++
        toString t := by
  have hdiv0 : (0 : ℚ) ≤ u / 50000 := by positivity
  have hdiv1 : u / 50000 < 1 := by
    rw [div_lt_one (by norm_num)]
    linarith
  have hfmod : fmodQ u 50000 = u := by
    rw [fmodQ, truncQ, if_pos hdiv0, Int.floor_eq_zero_iff.mpr ⟨hdiv0, hdiv1⟩]
    push_cast
    ring
  have hent : vtEntropy u = 10000000000 * (1 + u) := by
    rw [vtEntropy, hfmod]
  have hlo : (10000000000 : ℚ) ≤ vtEntropy u := by rw [hent]; linarith
  have hhi : vtEntropy u < 20000000000 := by rw [hent]; linarith
  have h50 : ¬ vtEntropy u < 50 := by linarith
  have hrand : vtAntiAbuseRandom u = roundHalfAway (vtEntropy u) := by
    rw [vtAntiAbuseRandom, if_neg h50]
  have hround : roundHalfAway (vtEntropy u) = ⌊vtEntropy u + 1 / 2⌋ := by
    rw [roundHalfAway, if_pos (by linarith)]
  refine ⟨hfmod, hlo, hhi, h50, hrand, ?_, ?_, ?_⟩
  · rw [hrand, hround, Int.le_floor]
    push_cast
    linarith
  · rw [hrand, hround]
    have : ⌊vtEntropy u + 1 / 2⌋ < 20000000001 := by
      rw [Int.floor_lt]
      push_cast
      linarith
    omega
  · rw [vtAntiAbusePayload, hrand]

/-- Splitting never yields the empty list of pieces. -/
theorem splitOnChar_ne_nil (sep : Char) (l : List Char) :
    splitOnChar sep l ≠ [] := by
  induction l with
  | nil => simp [splitOnChar]
  | cons c cs ih =>
    by_cases hc : c = sep
    · simp [splitOnChar, hc]
    · simp only [splitOnChar, if_neg hc]
      cases h : splitOnChar sep cs with
      | nil => simp
      | cons l ls => simp

/-- Splitting distributes over concatenation at a separator. -/
theorem splitOnChar_append (sep : Char) (l1 l2 : List Char) :
    splitOnChar sep (l1 ++ sep :: l2) =
      splitOnChar sep l1 ++ splitOnChar sep l2 := by
  induction l1 with
  | nil => simp [splitOnChar]
  | cons c cs ih =>
    by_cases hc : c = sep
    · simp [splitOnChar, hc, ih]
    · simp only [List.cons_append, splitOnChar, if_neg hc, List.append_eq]
      cases h : splitOnChar sep cs with
      | nil => exact absurd h (splitOnChar_ne_nil sep cs)
      | cons l ls => rw [ih, h]; simp

/-- A newline boundary makes any line-wise extraction of a concatenation the
union of the two extractions: no pattern of the five regex extractors can
match across a line break. -/
theorem linewiseExtract_append (m : List Char → Option (List Char × List Char))
    (b1 b2 : String) :
    linewiseExtract m (b1 ++ "\n" ++ b2) =
      linewiseExtract m b1 ∪ linewiseExtract m b2 := by
  unfold linewiseExtract
  rw [String.data_append, String.data_append,
    show ("\n" : String).data = ['\n'] from rfl, List.append_assoc,
    List.singleton_append, splitOnChar_append, List.flatMap_append,
    List.toFinset_append]

/-- C8 (amended): for each regex extractor, extracting a concatenation in
which a newline separates the two bodies equals the union of extracting
each; without a separator the equality fails in both directions because a
match may span the boundary (see
`regex_extract_concat_counterexample`). -/
theorem regex_extract_concat (d b1 b2 : String) :
    bingExtract d (b1 ++ "\n" ++ b2) =
      bingExtract d b1 ∪ bingExtract d b2 ∧
    googleExtract d (b1 ++ "\n" ++ b2) =
      googleExtract d b1 ∪ googleExtract d b2 ∧
    yahooExtract d (b1 ++ "\n" ++ b2) =
      yahooExtract d b1 ∪ yahooExtract d b2 ∧
    baiduExtract d (b1 ++ "\n" ++ b2) =
      baiduExtract d b1 ∪ baiduExtract d b2 ∧
    dnsdumpsterExtract d (b1 ++ "\n" ++ b2) =
      dnsdumpsterExtract d b1 ∪ dnsdumpsterExtract d b2 :=
  ⟨linewiseExtract_append _ b1 b2, linewiseExtract_append _ b1 b2,
   linewiseExtract_append _ b1 b2, linewiseExtract_append _ b1 b2,
   linewiseExtract_append _ b1 b2⟩

/-- C8 counterexample: for the Bing extractor, with
`b1 = "<cite>https://x."` and
`b2 = "example.com <cite>https://b.example.com</cite>"`, a match spans the
boundary of `b1 ++ b2` and swallows the `<cite>` block of `b2`, so the
extraction of the concatenation is `{x.example.com}` while the union of the
parts is `{b.example.com}` — neither inclusion holds. -/
theorem regex_extract_concat_counterexample :
    bingExtract "example.com"
        ("<cite>https://x." ++ "example.com <cite>https://b.example.com</cite>")
      ≠ bingExtract "example.com" "<cite>https://x." ∪
        bingExtract "example.com"
          "example.com <cite>https://b.example.com</cite>" ∧
    bingExtract "example.com"
        ("<cite>https://x." ++ "example.com <cite>https://b.example.com</cite>")
      = {"x.example.com"} ∧
    bingExtract "example.com" "<cite>https://x." = ∅ ∧
    bingExtract "example.com" "example.com <cite>https://b.example.com</cite>"
      = {"b.example.com"} := by decide

/-- C5 (amended): every hostname the AlienVault extractor returns ends with
the domain `D` in the sense of Rust `str::ends_with` — the code filters with
`d.ends_with(&self.domain)`, which does not require a label boundary, so a
member may merely end in `D` without ending in `"." ++ D` or equalling `D`
(see `alienvault_extract_dot_counterexample`). -/
theorem alienvault_extract_suffix (d b x : String)
    (hmem : x ∈ alienvaultExtract d b) : strEndsWith x d = true := by
  revert hmem
  unfold alienvaultExtract
  cases h : (jsonParse b).bind decodePassiveDns with
  | none => simp
  | some hosts =>
    intro hmem
    exact (Finset.mem_filter.mp hmem).2

/-- Witness for C5: on `avNoiseBody` with `D = ex.com` the extracted member
`index.com` does end with `ex.com`. -/
theorem alienvault_extract_suffix_witness :
    "index.com" ∈ alienvaultExtract "ex.com" avNoiseBody ∧
      strEndsWith "index.com" "ex.com" = true :=
  ⟨by decide,
   alienvault_extract_suffix "ex.com" avNoiseBody "index.com" (by decide)⟩

/-- C5 counterexample: for `D = ex.com` the passive-DNS body listing
`index.com` yields `{index.com}`, whose member neither ends with `".ex.com"`
nor equals `ex.com` — the `ends_with(&self.domain)` re-filter keeps it. -/
theorem alienvault_extract_dot_counterexample :
    alienvaultExtract "ex.com" avNoiseBody = {"index.com"} ∧
    ¬ (strEndsWith "index.com" ("." ++ "ex.com") = true ∨
        "index.com" = "ex.com") := by decide

/-- C6: a body that fails to parse yields the empty set for each structured
extractor (never an error — the embedding types return plain sets), and the
empty body yields the empty extracted set for every extractor of the
registry (plus Baidu); for VirusTotal a failed parse also leaves the stored
`meta` untouched. -/
theorem extract_parse_failure_empty :
    (∀ d b, (jsonParse b).bind decodePassiveDns = none →
      alienvaultExtract d b = ∅) ∧
    (∀ b, (jsonParse b).bind decodeCrtSh = none → crtshExtract b = ∅) ∧
    (∀ st b, (jsonParse b).bind decodeVt = none → vtExtract st b = (∅, st)) ∧
    (∀ d, alienvaultExtract d "" = ∅) ∧
    crtshExtract "" = ∅ ∧
    (∀ st, vtExtract st "" = (∅, st)) ∧
    hackertargetExtract "" = ∅ ∧
    (∀ d, bingExtract d "" = ∅) ∧
    (∀ d, googleExtract d "" = ∅) ∧
    (∀ d, yahooExtract d "" = ∅) ∧
    (∀ d, baiduExtract d "" = ∅) ∧
    (∀ d, dnsdumpsterExtract d "" = ∅) := by
  refine ⟨?_, ?_, ?_, fun d => rfl, rfl, fun st => rfl, rfl, fun d => rfl,
    fun d => rfl, fun d => rfl, fun d => rfl, fun d => rfl⟩
  · intro d b h
    unfold alienvaultExtract
    rw [h]
  · intro b h
    unfold crtshExtract
    rw [h]
  · intro st b h
    unfold vtExtract
    rw [h]

/-- Witness for C6: the malformed body `"["` fails to parse and each
structured extractor returns the empty set on it. -/
theorem extract_parse_failure_empty_witness :
    (jsonParse "[").bind decodePassiveDns = none ∧
      alienvaultExtract "ex.com" "[" = ∅ ∧
      crtshExtract "[" = ∅ ∧
      vtExtract none "[" = (∅, none) :=
  ⟨rfl, extract_parse_failure_empty.1 "ex.com" "[" rfl,
   extract_parse_failure_empty.2.1 "[" rfl,
   extract_parse_failure_empty.2.2.1 none "[" rfl⟩

/-- Witness for C10 at `u = 1/2`, `t = 7`: the entropy is `1.5e10` and the
branch yields its rounding. -/
theorem anti_abuse_entropy_spec_witness :
    fmodQ (1 / 2) 50000 = 1 / 2 ∧
      (10000000000 : ℚ) ≤ vtEntropy (1 / 2) ∧
      ¬ vtEntropy (1 / 2) < 50 ∧
      vtAntiAbuseRandom (1 / 2) = roundHalfAway (vtEntropy (1 / 2)) := by
  have h := anti_abuse_entropy_spec (1 / 2) 7 (by norm_num) (by norm_num)
  exact ⟨h.1, h.2.1, h.2.2.2.1, h.2.2.2.2.1⟩

end Sublist3r
